import Mathlib

/-!
Shallow embedding of the QtTools Sublime Text plugin
(`qttools.py`, `sidebar_menu_command.py`), used to check the
natural-language specification against the code.

User interaction is modelled by the values the blocking prompt helpers
return: a text panel either reports a string (`done s`) or is canceled,
in which case `text_input` returns the empty string; a quick panel
reports a selected index or is canceled (index `-1`), in which case
`choice_input` returns the empty string.  Template resources and the
filesystem are explicit parameters.  Machine-level details (threads,
the editor API) do not affect the values computed and are not modelled.
-/

namespace QtTools

/-- ASCII model of Python `str.isidentifier` start characters:
letters and underscore.  (Python additionally accepts non-ASCII
XID characters; every claim and the spec use the ASCII rule.) -/
def isIdentStart (c : Char) : Bool := c.isAlpha || c = '_'

/-- ASCII model of Python identifier continuation characters. -/
def isIdentChar (c : Char) : Bool := c.isAlphanum || c = '_'

/-- Model of Python `str.isidentifier` (ASCII fragment): non-empty,
first char a letter or underscore, the rest alphanumeric or underscore. -/
def isidentifier (s : String) : Bool :=
  match s.data with
  | [] => false
  | c :: cs => isIdentStart c && cs.all isIdentChar

/-- Model of Python `str.upper` on ASCII text. -/
def pyUpper (s : String) : String := String.mk (s.data.map Char.toUpper)

/-- Model of Python `str.lower` on ASCII text. -/
def pyLower (s : String) : String := String.mk (s.data.map Char.toLower)

/-- Outcome of one modal text prompt: the user confirmed with a string,
or dismissed the panel. -/
inductive PromptAnswer where
  | done (s : String)
  | cancel
deriving DecidableEq, Repr

/-- `text_input` / `TextInput.get_value`: the confirmed text, or the
empty string when the panel was canceled. -/
def textInput : PromptAnswer → String
  | .done s => s
  | .cancel => ""

/-- `choice_input` / `ChoiceInput.get_value`: the chosen entry, or the
empty string when the panel was canceled (`index == -1`). -/
def choiceInput (choices : List String) : Option Nat → String
  | none => ""
  | some i =>
    match choices.get? i with
    | some v => v
    | none => ""

/-- `yesno_input`: asks Yes/No through `choice_input` and reports
whether the answer equals the first option (`"Yes"`). -/
def yesnoInput (sel : Option Nat) : Bool :=
  choiceInput ["Yes", "No"] sel == "Yes"

/-- Python exceptions reachable in the embedded code. -/
inductive PErr where
  | canceled (msg : String)
  | valueError (msg : String)
  | fileNotFound (name : String)
  | keyError (k : String)
  | invalidPlaceholder
  | missingParentDir (path : List String)
  | nameError (v : String)
deriving DecidableEq, Repr

/-- Scanner state of the `string.Template` placeholder scanner:
ordinary text, just after a `$`, inside a `$name` placeholder, just
after `$\x7b`, or inside a braced placeholder. -/
inductive SState where
  | text
  | dollar
  | named (acc : List Char)
  | bracedFirst
  | braced (acc : List Char)
deriving DecidableEq, Repr

/-- Left-to-right scan of Python
`string.Template(text).substitute(mapping)` (default `$` delimiter):
`$$` escapes a dollar, `$name` and `$\x7bname\x7d` substitute
`mapping[name]`, a missing key raises `KeyError`, and a dollar not
followed by a valid pattern raises `ValueError`.  Placeholder
characters read so far are accumulated (reversed) in the state. -/
def substGo (dict : String → Option String) : SState → List Char → Except PErr (List Char)
  | .text, [] => .ok []
  | .text, c :: rest =>
    if c = '$' then substGo dict .dollar rest
    else (substGo dict .text rest).map (fun l => c :: l)
  | .dollar, [] => .error .invalidPlaceholder
  | .dollar, c :: rest =>
    if c = '$' then (substGo dict .text rest).map (fun l => '$' :: l)
    else if c = '{' then substGo dict .bracedFirst rest
    else if isIdentStart c then substGo dict (.named [c]) rest
    else .error .invalidPlaceholder
  | .named acc, [] =>
    (match dict (String.mk acc.reverse) with
     | some v => .ok v.data
     | none => .error (.keyError (String.mk acc.reverse)))
  | .named acc, c :: rest =>
    if isIdentChar c then substGo dict (.named (c :: acc)) rest
    else
      (match dict (String.mk acc.reverse) with
       | some v =>
         if c = '$' then (substGo dict .dollar rest).map (fun l => v.data ++ l)
         else (substGo dict .text rest).map (fun l => v.data ++ c :: l)
       | none => .error (.keyError (String.mk acc.reverse)))
  | .bracedFirst, [] => .error .invalidPlaceholder
  | .bracedFirst, c :: rest =>
    if isIdentStart c then substGo dict (.braced [c]) rest
    else .error .invalidPlaceholder
  | .braced _, [] => .error .invalidPlaceholder
  | .braced acc, c :: rest =>
    if c = '}' then
      (match dict (String.mk acc.reverse) with
       | some v => (substGo dict .text rest).map (fun l => v.data ++ l)
       | none => .error (.keyError (String.mk acc.reverse)))
    else if isIdentChar c then substGo dict (.braced (c :: acc)) rest
    else .error .invalidPlaceholder

/-- `string.Template(text).substitute(mapping)` on the text's chars. -/
def subst (dict : String → Option String) (l : List Char) : Except PErr (List Char) :=
  substGo dict .text l

/-- Loads a named template resource and substitutes the descriptor's
fields, following `TemplateLoader.get_text` / `get_template` +
`write_snippet`: a missing resource raises `FileNotFoundError`, an
unresolved placeholder raises `KeyError`. -/
def renderTemplate (env : String → Option String) (name : String)
    (dict : String → Option String) : Except PErr String :=
  match env name with
  | none => .error (.fileNotFound name)
  | some t => (subst dict t.data).map String.mk

/-- POSIX model of `pathlib.Path`: absolute flag plus segments.
`Path` drops empty and `"."` segments at construction; `".."` is kept
until `resolve`. -/
structure PyPath where
  absolute : Bool
  segments : List String
deriving DecidableEq, Repr

/-- Split a character list at `'/'` separators. -/
def splitSlashAux : List Char → List Char → List String
  | [], acc => [String.mk acc.reverse]
  | '/' :: rest, acc => String.mk acc.reverse :: splitSlashAux rest []
  | c :: rest, acc => splitSlashAux rest (c :: acc)

/-- Parse a path string the way `pathlib.Path` normalizes it. -/
def parsePath (s : String) : PyPath :=
  ⟨s.data.head? = some '/', (splitSlashAux s.data []).filter (fun x => x ≠ "" && x ≠ ".")⟩

/-- `Path(a, b)` / `a.joinpath(b)`: an absolute right operand replaces
the left operand entirely. -/
def joinPath (a b : PyPath) : PyPath :=
  if b.absolute then b else ⟨a.absolute, a.segments ++ b.segments⟩

/-- `Path.resolve` segment normalization on an absolute path:
`".."` pops the previous segment (staying at the root when empty). -/
def normSegs (segs : List String) : List String :=
  segs.foldl (fun acc s => if s = ".." then acc.dropLast else acc ++ [s]) []

/-- `Path(base, name).resolve()` as done by `write_project_files`. -/
def resolveUnder (base : PyPath) (name : String) : List String :=
  normSegs (joinPath base (parsePath name)).segments

/-- Filesystem model: a set of existing directories and a map from
absolute paths to text contents, both as segment lists. -/
structure FS where
  dirs : List (List String)
  files : List (List String × String)
deriving DecidableEq, Repr

/-- Store a file's content, replacing any existing entry for the path. -/
def setContent : List (List String × String) → List String → String → List (List String × String)
  | [], p, t => [(p, t)]
  | (q, u) :: rest, p, t =>
    if q = p then (p, t) :: rest else (q, u) :: setContent rest p t

/-- Look up a file's content. -/
def getContent : List (List String × String) → List String → Option String
  | [], _ => none
  | (q, u) :: rest, p => if q = p then some u else getContent rest p

/-- `Path.write_text`: requires the parent directory to exist (raises
`FileNotFoundError` otherwise) and overwrites any existing file. -/
def FS.writeText (fs : FS) (target : List String) (text : String) : Except PErr FS :=
  if target.dropLast ∈ fs.dirs then
    .ok ⟨fs.dirs, setContent fs.files target text⟩
  else
    .error (.missingParentDir target)

namespace QT

/-- `qttools.py` `Config` dataclass after `__post_init__`. -/
structure Config where
  class_name : String
  baseclass_name : String
  source : String
  header : String
  include_guard : String
deriving DecidableEq, Repr

/-- `Config(class_name, baseclass_name)`: `__post_init__` validates only
`class_name` and derives `source`, `header` and `include_guard`. -/
def Config.build (class_name baseclass_name : String) : Except PErr Config :=
  if isidentifier class_name then
    .ok ⟨class_name, baseclass_name, class_name ++ ".cpp", class_name ++ ".h",
      pyUpper class_name ++ "_H"⟩
  else
    .error (.valueError ("Invalid class name " ++ class_name))

/-- `dataclasses.asdict(config)` as a lookup. -/
def Config.dict (cfg : Config) : String → Option String := fun k =>
  if k = "class_name" then some cfg.class_name
  else if k = "baseclass_name" then some cfg.baseclass_name
  else if k = "source" then some cfg.source
  else if k = "header" then some cfg.header
  else if k = "include_guard" then some cfg.include_guard
  else none

/-- The fixed choice list in `UiClass.configure`. -/
def uiClasses : List String := ["QWidget", "QDialog", "QMainWindow"]

/-- The three prompts of `UiClass.configure`, in order. -/
structure UiInputs where
  baseChoice : Option Nat
  createChoice : Option Nat
  classAns : PromptAnswer
deriving DecidableEq, Repr

/-- `UiClass.configure`: base-class quick panel (cancel raises
`Canceled`), the Yes/No create-implementation panel (its result is just
compared against `"Yes"`), then the class-name prompt (cancel raises
`Canceled`), finally `Config` construction. -/
def uiConfigure (inp : UiInputs) : Except PErr (Config × Bool) :=
  let baseclass_name := choiceInput uiClasses inp.baseChoice
  if baseclass_name = "" then .error (.canceled "baseclass_name undefined")
  else
    let create_class := yesnoInput inp.createChoice
    let class_name := textInput inp.classAns
    if class_name = "" then .error (.canceled "class_name undefined")
    else (Config.build class_name baseclass_name).map (fun c => (c, create_class))

/-- `UiClass.generate`: writes the UI form, then — only when the user
asked for an implementation class — the source and header.  The result
is the ordered list of (target path, content) writes. -/
def uiGenerate (cfg : Config) (create_class : Bool) (base : PyPath)
    (env : String → Option String) : Except PErr (List (List String × String)) := do
  let uiText ← renderTemplate env ("ui/form_" ++ pyLower cfg.baseclass_name ++ ".txt") cfg.dict
  let w1 := (resolveUnder base (cfg.class_name ++ ".ui"), uiText)
  if create_class then
    let sText ← renderTemplate env "sources/class_ui.txt" cfg.dict
    let hText ← renderTemplate env "headers/class_ui.txt" cfg.dict
    pure [w1, (resolveUnder base cfg.source, sText), (resolveUnder base cfg.header, hText)]
  else
    pure [w1]

/-- `QttoolsCreateClassCommand.run_task` for the UI kind: `Canceled`
from `configure` is caught and printed (zero writes); any other
exception propagates; otherwise `generate` runs. -/
def uiRun (inp : UiInputs) (base : PyPath) (env : String → Option String) :
    Except PErr (List (List String × String)) :=
  match uiConfigure inp with
  | .error (.canceled _) => .ok []
  | .error e => .error e
  | .ok (cfg, cc) => uiGenerate cfg cc base env

end QT

namespace SB

/-- `sidebar_menu_command.py` `ClassData` dataclass after `__post_init__`. -/
structure ClassData where
  class_name : String
  baseclass_name : String
  source_name : String
  header_name : String
  include_guard : String
  ui_name : String
deriving DecidableEq, Repr

/-- `ClassData(class_name, baseclass_name)`: `__post_init__` validates
`class_name` and then `baseclass_name` — including the default empty
string — before deriving the file names. -/
def ClassData.build (class_name baseclass_name : String) : Except PErr ClassData :=
  if isidentifier class_name then
    if isidentifier baseclass_name then
      .ok ⟨class_name, baseclass_name, class_name ++ ".cpp", class_name ++ ".h",
        pyUpper class_name ++ "_H", class_name ++ ".ui"⟩
    else
      .error (.valueError ("Invalid base class name " ++ baseclass_name))
  else
    .error (.valueError ("Invalid class name " ++ class_name))

/-- `dataclasses.asdict(class_data)` as a lookup. -/
def ClassData.dict (cd : ClassData) : String → Option String := fun k =>
  if k = "class_name" then some cd.class_name
  else if k = "baseclass_name" then some cd.baseclass_name
  else if k = "source_name" then some cd.source_name
  else if k = "header_name" then some cd.header_name
  else if k = "include_guard" then some cd.include_guard
  else if k = "ui_name" then some cd.ui_name
  else none

/-- A pending write: a path (as typed into the `File` dataclass) and
its text content. -/
structure File where
  path : String
  text : String
deriving DecidableEq, Repr

/-- A generation run's output: base path plus pending files. -/
structure Project where
  path : PyPath
  files : List File
deriving DecidableEq, Repr

/-- Sequential body of `write_project_files`: resolve each file under
the project path and `write_text` it; an exception stops the loop with
the earlier writes already persisted. -/
def writeFilesLoop (base : PyPath) : FS → List File → Option PErr × FS
  | fs, [] => (none, fs)
  | fs, f :: rest =>
    match fs.writeText (resolveUnder base f.path) f.text with
    | .error e => (some e, fs)
    | .ok fs2 => writeFilesLoop base fs2 rest

/-- `write_project_files(project)`. -/
def writeProjectFiles (fs : FS) (p : Project) : Option PErr × FS :=
  writeFilesLoop p.path fs p.files

/-- `TemplateLoader(template).get_text(data)`. -/
def getText (env : String → Option String) (name : String) (cd : ClassData) :
    Except PErr String :=
  renderTemplate env name cd.dict

/-- `PlainClass.prepare`: a non-empty class name constructs
`ClassData(class_name)` with the default (empty) base class name. -/
def plainPrepare (a : PromptAnswer) : Except PErr (Option ClassData) :=
  let class_name := textInput a
  if class_name = "" then .ok none
  else (ClassData.build class_name "").map some

/-- `PlainClass.prepare` + `PlainClass.generate` as one step: the
`Project` the run would hand to `write_project_files`, or the exception
that escapes first. -/
def plainProject (a : PromptAnswer) (env : String → Option String) (base : PyPath) :
    Except PErr Project :=
  match plainPrepare a with
  | .error e => .error e
  | .ok none => .ok ⟨base, []⟩
  | .ok (some cd) => do
    let hText ← getText env "headers/plain.txt" cd
    let sText ← getText env "sources/plain.txt" cd
    pure ⟨base, [⟨cd.header_name, hText⟩, ⟨cd.source_name, sText⟩]⟩

/-- The fixed choice list in `GuiClass.prepare`. -/
def guiClasses : List String := ["QMainWindow", "QDialog", "QWidget"]

/-- `GuiClass.prepare`: base-class quick panel, then class-name prompt;
cancel at either leaves `class_data` unset. -/
def guiPrepare (baseChoice : Option Nat) (classAns : PromptAnswer) :
    Except PErr (Option ClassData) :=
  let baseclass_name := choiceInput guiClasses baseChoice
  if baseclass_name = "" then .ok none
  else
    let class_name := textInput classAns
    if class_name = "" then .ok none
    else (ClassData.build class_name baseclass_name).map some

/-- `GuiClass.prepare` + `GuiClass.generate`: header, source and UI
form — all three texts are rendered while the `files` list is built,
before any write. -/
def guiProject (baseChoice : Option Nat) (classAns : PromptAnswer)
    (env : String → Option String) (base : PyPath) : Except PErr Project :=
  match guiPrepare baseChoice classAns with
  | .error e => .error e
  | .ok none => .ok ⟨base, []⟩
  | .ok (some cd) => do
    let hText ← getText env "headers/gui.txt" cd
    let sText ← getText env "sources/gui.txt" cd
    let uText ← getText env ("ui/" ++ cd.baseclass_name ++ ".txt") cd
    pure ⟨base, [⟨cd.header_name, hText⟩, ⟨cd.source_name, sText⟩, ⟨cd.ui_name, uText⟩]⟩

/-- `EmptyFile.prepare` + `EmptyFile.generate`: the prompted name goes
verbatim into the `File` path, with empty content; cancel yields an
empty project.  No exception is possible. -/
def emptyFileProject (a : PromptAnswer) (base : PyPath) : Project :=
  let file_name := textInput a
  if file_name = "" then ⟨base, []⟩ else ⟨base, [⟨file_name, ""⟩]⟩

/-- `run_task` tail: an exception escaping `prepare`/`generate` kills
the worker thread before `write_project_files` is reached, leaving the
filesystem untouched; otherwise the project is written. -/
def runWith (projE : Except PErr Project) (fs : FS) : Option PErr × FS :=
  match projE with
  | .error e => (some e, fs)
  | .ok p => writeProjectFiles fs p

end SB

namespace Uic

/-- Result of `subprocess.run(["uic", "-g", language, file_name], ...)`
when the executable was found. -/
structure ProcResult where
  returncode : Int
  stdout : String
  stderr : String
deriving DecidableEq, Repr

/-- `QttoolsGenerateCodeCommand.suffix_map`. -/
def suffixMap (language : String) : Option String :=
  if language = "cpp" then some ".h"
  else if language = "python" then some ".py"
  else none

/-- `list(suffix_map.keys())` in insertion order. -/
def languageOptions : List String := ["cpp", "python"]

/-- Leftmost, non-overlapping replacement of CRLF pairs by LF. -/
def replaceCRLF : List Char → List Char
  | [] => []
  | '\r' :: '\n' :: rest => '\n' :: replaceCRLF rest
  | c :: rest => c :: replaceCRLF rest

/-- `normalize_newline`: CRLF becomes LF. -/
def normalizeNewline (s : String) : String := String.mk (replaceCRLF s.data)

/-- The chars of a file name kept by `Path.with_suffix`: everything
before the last `'.'`, provided that dot is not the first character. -/
def dropAfterLastDot : List Char → Option (List Char)
  | [] => none
  | c :: rest =>
    match dropAfterLastDot rest with
    | some tail => some (c :: tail)
    | none => if c = '.' then some [] else none

/-- `Path.with_suffix` on a single path component. -/
def withSuffixName (name : String) (suf : String) : String :=
  match dropAfterLastDot name.data with
  | some (c :: stem) => String.mk (c :: stem) ++ suf
  | _ => name ++ suf

/-- Apply a function to the last segment of a path. -/
def mapLast (f : String → String) : List String → List String
  | [] => []
  | [x] => [f x]
  | x :: xs => x :: mapLast f xs

/-- `Path(file_path.parent, output_name).with_suffix(suffix_map[language])`. -/
def outputPath (parent : PyPath) (output_name : String) (suf : String) : List String :=
  mapLast (fun n => withSuffixName n suf) (joinPath parent (parsePath output_name)).segments

/-- The two prompts of `QttoolsGenerateCodeCommand._run`. -/
structure GenInputs where
  langChoice : Option Nat
  outputAns : PromptAnswer
deriving DecidableEq, Repr

/-- Observable outcome of one `_run` invocation. -/
inductive Outcome where
  | noop
  | printedErr (msg : String)
  | wrote (path : List String) (text : String)
deriving DecidableEq, Repr

/-- `QttoolsGenerateCodeCommand._run`.  `proc = none` models `uic`
missing from `PATH`: the `except FileNotFoundError` branch shows its
message but does not return, so control falls through to
`process.returncode` with the local `process` unbound, raising
`UnboundLocalError` (a `NameError`). -/
def generateCodeRun (fileParent : PyPath) (inp : GenInputs)
    (proc : Option ProcResult) : Except PErr Outcome :=
  let language := choiceInput languageOptions inp.langChoice
  if language = "" then .ok .noop
  else
    let output_name := textInput inp.outputAns
    if output_name = "" then .ok .noop
    else
      match proc with
      | none => .error (.nameError "process")
      | some p =>
        if p.returncode ≠ 0 then .ok (.printedErr (normalizeNewline p.stderr))
        else
          .ok (.wrote (outputPath fileParent output_name ((suffixMap language).getD ""))
            (normalizeNewline p.stdout))

/-- `QttoolsOpenDesignerCommand.run`: when `designer` is missing, the
`FileNotFoundError` handler shows a message naming the tool and the
fix, and the handler is the last statement — the run ends cleanly. -/
def openDesignerRun (toolPresent : Bool) : Option String :=
  if toolPresent then none
  else some "Unable find Qt 'designer'.\nSet 'designer' directory in PATH."

end Uic

/-- Well-formed-template model for stating the unresolved-placeholder
property: a template is a list of tokens, each a dollar-free literal or
a `\x7b`-braced placeholder. -/
inductive Tok where
  | lit (s : String)
  | hole (k : String)
deriving DecidableEq, Repr

/-- The raw template text a token stands for. -/
def Tok.renderOne : Tok → List Char
  | .lit s => s.data
  | .hole k => '$' :: '{' :: (k.data ++ ['}'])

/-- The raw template text of a token list. -/
def renderToks (ts : List Tok) : List Char := (ts.map Tok.renderOne).flatten

/-- Side condition making a token list a faithful template: literals
contain no dollar sign and placeholder keys are identifiers. -/
def Tok.wf : Tok → Bool
  | .lit s => s.data.all (fun c => c ≠ '$')
  | .hole k => isidentifier k

/-- The placeholder keys a token template references, in order. -/
def holeKeys (ts : List Tok) : List String :=
  ts.filterMap (fun t => match t with | .hole k => some k | .lit _ => none)

/-- The first referenced key the mapping does not provide. -/
def firstMissing (dict : String → Option String) (ts : List Tok) : Option String :=
  (holeKeys ts).find? (fun k => (dict k).isNone)

/-- The substituted text of a fully resolvable token template. -/
def substTokList (dict : String → Option String) (ts : List Tok) : List Char :=
  (ts.map (fun t =>
    match t with
    | .lit s => s.data
    | .hole k => ((dict k).getD "").data)).flatten

theorem subst_cons_ne (dict : String → Option String) (c : Char) (r : List Char)
    (h : c ≠ '$') : subst dict (c :: r) = (subst dict r).map (fun l => c :: l) := by
  rw [subst, subst, substGo, if_neg h]

theorem subst_append_clean (dict : String → Option String) (s r : List Char)
    (h : s.all (fun c => c ≠ '$') = true) :
    subst dict (s ++ r) = (subst dict r).map (fun l => s ++ l) := by
  induction s with
  | nil =>
    cases hr : subst dict r <;> simp [Except.map, hr]
  | cons c t ih =>
    simp only [List.all_cons, Bool.and_eq_true, decide_eq_true_eq] at h
    rw [List.cons_append, subst_cons_ne dict c (t ++ r) h.1, ih h.2]
    cases hr : subst dict r <;> simp [Except.map, hr]

theorem substGo_braced_run (dict : String → Option String) (r : List Char)
    (ks : List Char) (hks : ks.all isIdentChar = true) : ∀ acc : List Char,
    substGo dict (.braced acc) (ks ++ '}' :: r) =
      match dict (String.mk (acc.reverse ++ ks)) with
      | some v => (substGo dict .text r).map (fun l => v.data ++ l)
      | none => .error (.keyError (String.mk (acc.reverse ++ ks))) := by
  induction ks with
  | nil =>
    intro acc
    rw [List.nil_append, substGo, if_pos rfl]
    simp
  | cons k0 ks0 ih =>
    intro acc
    simp only [List.all_cons, Bool.and_eq_true] at hks
    have hk0 : k0 ≠ '}' := by
      intro he
      rw [he] at hks
      exact absurd hks.1 (by decide)
    rw [List.cons_append, substGo, if_neg hk0, if_pos hks.1, ih hks.2 (k0 :: acc)]
    simp

theorem subst_braced (dict : String → Option String) (c : Char) (ks r : List Char)
    (hc : isIdentStart c = true) (hks : ks.all isIdentChar = true) :
    subst dict ('$' :: '{' :: c :: (ks ++ '}' :: r)) =
      match dict (String.mk (c :: ks)) with
      | some v => (subst dict r).map (fun l => v.data ++ l)
      | none => .error (.keyError (String.mk (c :: ks))) := by
  rw [subst, substGo, if_pos rfl, substGo, if_neg (by decide), if_pos rfl, substGo,
    if_pos hc, substGo_braced_run dict r ks hks [c]]
  simp [subst]

theorem holeKeys_cons_lit (s : String) (rest : List Tok) :
    holeKeys (.lit s :: rest) = holeKeys rest := by
  simp [holeKeys]

theorem holeKeys_cons_hole (k : String) (rest : List Tok) :
    holeKeys (.hole k :: rest) = k :: holeKeys rest := by
  simp [holeKeys]

theorem firstMissing_cons_lit (dict : String → Option String) (s : String)
    (rest : List Tok) : firstMissing dict (.lit s :: rest) = firstMissing dict rest := by
  simp [firstMissing, holeKeys_cons_lit]

theorem firstMissing_cons_hole_missing (dict : String → Option String) (k : String)
    (rest : List Tok) (hdk : dict k = none) :
    firstMissing dict (.hole k :: rest) = some k := by
  rw [firstMissing, holeKeys_cons_hole]
  exact List.find?_cons_of_pos _ (by simp [hdk])

theorem firstMissing_cons_hole_present (dict : String → Option String) (k : String)
    (v : String) (rest : List Tok) (hdk : dict k = some v) :
    firstMissing dict (.hole k :: rest) = firstMissing dict rest := by
  rw [firstMissing, holeKeys_cons_hole, firstMissing]
  exact List.find?_cons_of_neg _ (by simp [hdk])

theorem substTokList_cons_lit (dict : String → Option String) (s : String)
    (rest : List Tok) :
    substTokList dict (.lit s :: rest) = s.data ++ substTokList dict rest := by
  simp [substTokList]

theorem substTokList_cons_hole (dict : String → Option String) (k : String)
    (rest : List Tok) :
    substTokList dict (.hole k :: rest) = ((dict k).getD "").data ++ substTokList dict rest := by
  simp [substTokList]

theorem subst_renderToks (dict : String → Option String) (ts : List Tok)
    (h : ts.all Tok.wf = true) :
    subst dict (renderToks ts) =
      match firstMissing dict ts with
      | some k => .error (.keyError k)
      | none => .ok (substTokList dict ts) := by
  induction ts with
  | nil => simp [renderToks, firstMissing, holeKeys, substTokList, subst, substGo]
  | cons t rest ih =>
    simp only [List.all_cons, Bool.and_eq_true] at h
    obtain ⟨ht, hrest⟩ := h
    have ihr := ih hrest
    cases t with
    | lit s =>
      have hr : renderToks (.lit s :: rest) = s.data ++ renderToks rest := by
        simp [renderToks, Tok.renderOne]
      rw [hr, subst_append_clean dict s.data (renderToks rest) ht, ihr,
        firstMissing_cons_lit, substTokList_cons_lit]
      cases hfm : firstMissing dict rest <;> simp [hfm, Except.map]
    | hole k =>
      have hk : isidentifier k = true := ht
      have hr : renderToks (.hole k :: rest) =
          '$' :: '{' :: (k.data ++ '}' :: renderToks rest) := by
        simp [renderToks, Tok.renderOne]
      cases hd : k.data with
      | nil =>
        rw [isidentifier, hd] at hk
        simp at hk
      | cons c cs =>
        rw [isidentifier, hd] at hk
        simp only [Bool.and_eq_true] at hk
        have hmk : String.mk (c :: cs) = k := congrArg String.mk hd.symm
        rw [hr, hd]
        simp only [List.cons_append]
        rw [subst_braced dict c cs (renderToks rest) hk.1 hk.2, hmk]
        cases hdk : dict k with
        | none =>
          rw [firstMissing_cons_hole_missing dict k rest hdk]
        | some v =>
          rw [ihr, firstMissing_cons_hole_present dict k v rest hdk,
            substTokList_cons_hole]
          cases hfm : firstMissing dict rest <;> simp [hfm, Except.map, hdk]

theorem getContent_setContent_self (m : List (List String × String)) (p : List String)
    (t : String) : getContent (setContent m p t) p = some t := by
  induction m with
  | nil => simp [setContent, getContent]
  | cons e rest ih =>
    obtain ⟨q, u⟩ := e
    by_cases h : q = p <;> simp [setContent, getContent, h, ih]

theorem writeText_ok_dirs (fs fs2 : FS) (p : List String) (t : String)
    (h : fs.writeText p t = .ok fs2) : fs2.dirs = fs.dirs := by
  rw [FS.writeText] at h
  split at h
  · injection h with h2
    rw [← h2]
  · exact absurd h (by simp)

theorem writeText_ok_of_parent (fs : FS) (p : List String) (t : String)
    (h : p.dropLast ∈ fs.dirs) :
    fs.writeText p t = .ok ⟨fs.dirs, setContent fs.files p t⟩ := by
  rw [FS.writeText, if_pos h]

theorem writeFilesLoop_ok (base : PyPath) (files : List SB.File) :
    ∀ fs : FS, (∀ f ∈ files, (resolveUnder base f.path).dropLast ∈ fs.dirs) →
      (SB.writeFilesLoop base fs files).1 = none ∧
      (SB.writeFilesLoop base fs files).2.dirs = fs.dirs := by
  induction files with
  | nil => intro fs _; simp [SB.writeFilesLoop]
  | cons f rest ih =>
    intro fs h
    have hf := h f (by simp)
    rw [SB.writeFilesLoop, writeText_ok_of_parent fs _ f.text hf]
    have hrest : ∀ g ∈ rest, (resolveUnder base g.path).dropLast ∈
        (⟨fs.dirs, setContent fs.files (resolveUnder base f.path) f.text⟩ : FS).dirs := by
      intro g hg
      exact h g (by simp [hg])
    exact ih _ hrest

/-- Base path `/proj/src` used in concrete evaluations. -/
def projSrc : PyPath := ⟨true, ["proj", "src"]⟩

/-- A template environment providing only the QWidget UI form, with
dollar-free content. -/
def uiFormOnlyEnv : String → Option String := fun n =>
  if n = "ui/form_qwidget.txt" then some "x" else none

/-- C1: the claim says a PlainClass run entering the valid identifier
`Foo` over `/proj/src` produces `/proj/src/Foo.h` and `/proj/src/Foo.cpp`
from the templates.  On the code, `PlainClass.prepare` constructs
`ClassData("Foo")` whose `__post_init__` also validates the default
empty `baseclass_name` and raises `ValueError`, so every such run dies
before `generate` and writes nothing: for every template environment,
base path and filesystem, the run ends in the `ValueError` and leaves
the filesystem unchanged. -/
theorem plainClass_foo_run_raises (env : String → Option String) (base : PyPath) (fs : FS) :
    SB.runWith (SB.plainProject (.done "Foo") env base) fs =
      (some (.valueError ("Invalid base class name " ++ "")), fs) := rfl

/-- C3: every successfully constructed `ClassData` carries exactly the
derived names `c ++ ".h"`, `c ++ ".cpp"`, `upper(c) ++ "_H"` and
`c ++ ".ui"`, and for every valid identifier `c` the `Config`
constructor succeeds and derives the same header/source/include-guard
names at construction. -/
theorem descriptor_derives_names (c b : String) :
    (∀ d : SB.ClassData, SB.ClassData.build c b = .ok d →
      d.class_name = c ∧ d.header_name = c ++ ".h" ∧ d.source_name = c ++ ".cpp" ∧
      d.include_guard = pyUpper c ++ "_H" ∧ d.ui_name = c ++ ".ui") ∧
    (isidentifier c = true →
      QT.Config.build c b = .ok ⟨c, b, c ++ ".cpp", c ++ ".h", pyUpper c ++ "_H"⟩) := by
  constructor
  · intro d hd
    rw [SB.ClassData.build] at hd
    split at hd
    · split at hd
      · injection hd with h
        rw [← h]
        exact ⟨rfl, rfl, rfl, rfl, rfl⟩
      · exact absurd hd (by simp)
    · exact absurd hd (by simp)
  · intro hc
    rw [QT.Config.build, if_pos hc]

/-- C3 witness: evaluated at the identifier `Foo` with base `QWidget`. -/
theorem descriptor_derives_names_witness :
    QT.Config.build "Foo" "QWidget" =
      .ok ⟨"Foo", "QWidget", "Foo.cpp", "Foo.h", "FOO_H"⟩ ∧
    (SB.ClassData.build "Foo" "QWidget" = .ok ⟨"Foo", "QWidget", "Foo.cpp", "Foo.h", "FOO_H", "Foo.ui"⟩ →
      (⟨"Foo", "QWidget", "Foo.cpp", "Foo.h", "FOO_H", "Foo.ui"⟩ : SB.ClassData).header_name =
        "Foo" ++ ".h") := by
  constructor
  · have h := (descriptor_derives_names "Foo" "QWidget").2 (by decide)
    rw [h]
    simp only [Except.ok.injEq, QT.Config.mk.injEq]
    decide
  · intro h
    exact ((descriptor_derives_names "Foo" "QWidget").1 _ h).2.1

/-- C4: for every string that is not a valid identifier, both descriptor
constructors fail with the `ValueError` raised by `__post_init__` and no
descriptor value is produced. -/
theorem invalid_identifier_rejected (c b : String) (h : isidentifier c = false) :
    (∃ m, SB.ClassData.build c b = .error (.valueError m)) ∧
    (∃ m, QT.Config.build c b = .error (.valueError m)) := by
  rw [SB.ClassData.build, QT.Config.build]
  rw [h]
  exact ⟨⟨_, rfl⟩, ⟨_, rfl⟩⟩

/-- C4 witness: evaluated at the empty string, a leading-digit string
and a string with an embedded space. -/
theorem invalid_identifier_rejected_witness :
    (∃ m, SB.ClassData.build "" "QWidget" = .error (.valueError m)) ∧
    (∃ m, QT.Config.build "1abc" "QWidget" = .error (.valueError m)) ∧
    (∃ m, QT.Config.build "my class" "" = .error (.valueError m)) :=
  ⟨(invalid_identifier_rejected "" "QWidget" (by decide)).1,
   (invalid_identifier_rejected "1abc" "QWidget" (by decide)).2,
   (invalid_identifier_rejected "my class" "" (by decide)).2⟩

/-- C2 counterexample: in the `UiClass` run the user cancels the
create-implementation Yes/No prompt (`createChoice = none`) and answers
the other prompts, yet the run still produces one file write — refuting
"canceling any prompt in a sequence yields a Project with zero files
and performs no filesystem write". -/
theorem cancel_yesno_still_writes :
    QT.uiRun ⟨some 0, none, .done "Widget"⟩ projSrc uiFormOnlyEnv =
      .ok [(["proj", "src", "Widget.ui"], "x")] ∧
    ∀ l, QT.uiRun ⟨some 0, none, .done "Widget"⟩ projSrc uiFormOnlyEnv = .ok l →
      l ≠ [] := by
  refine ⟨rfl, ?_⟩
  intro l hl
  rw [show QT.uiRun ⟨some 0, none, .done "Widget"⟩ projSrc uiFormOnlyEnv =
    .ok [(["proj", "src", "Widget.ui"], "x")] from rfl] at hl
  injection hl with h
  rw [← h]
  simp

/-- C2 amended: canceling the base-class choice or the class-name text
prompt aborts the run with zero files and no filesystem write, for the
`UiClass` run and for the Project-returning sidebar generators; the
Yes/No create-implementation prompt is the exception — canceling it is
treated as answering No and the run proceeds. -/
theorem cancel_aborts_generation (cc bc : Option Nat) (ca : PromptAnswer)
    (base : PyPath) (env : String → Option String) (fs : FS) :
    QT.uiRun ⟨none, cc, ca⟩ base env = .ok [] ∧
    QT.uiRun ⟨bc, cc, .cancel⟩ base env = .ok [] ∧
    QT.uiRun ⟨bc, none, ca⟩ base env = QT.uiRun ⟨bc, some 1, ca⟩ base env ∧
    SB.plainProject .cancel env base = .ok ⟨base, []⟩ ∧
    SB.guiProject none ca env base = .ok ⟨base, []⟩ ∧
    SB.guiProject bc .cancel env base = .ok ⟨base, []⟩ ∧
    SB.emptyFileProject .cancel base = ⟨base, []⟩ ∧
    SB.writeProjectFiles fs ⟨base, []⟩ = (none, fs) := by
  refine ⟨rfl, ?_, rfl, rfl, rfl, ?_, rfl, rfl⟩
  · by_cases hb : choiceInput QT.uiClasses bc = "" <;>
      simp [QT.uiRun, QT.uiConfigure, hb, textInput]
  · by_cases hb : choiceInput SB.guiClasses bc = "" <;>
      simp [SB.guiProject, SB.guiPrepare, hb, textInput]

theorem uiConfigure_ok_snd (inp : QT.UiInputs) (cfg : QT.Config) (cc : Bool)
    (h : QT.uiConfigure inp = .ok (cfg, cc)) : cc = yesnoInput inp.createChoice := by
  rw [QT.uiConfigure] at h
  split at h
  · exact absurd h (by simp)
  · dsimp only at h
    split at h
    · exact absurd h (by simp)
    · cases hb : QT.Config.build (textInput inp.classAns)
          (choiceInput QT.uiClasses inp.baseChoice) with
      | error e =>
        rw [hb] at h
        exact absurd h (by simp [Except.map])
      | ok c2 =>
        rw [hb] at h
        simp only [Except.map] at h
        injection h with h2
        exact (congrArg Prod.snd h2).symm

/-- C5: whenever the `UiClass` prompts completed with the
create-implementation question answered No (`createChoice = some 1`),
a successful run performs exactly one write — the class's UI form —
and not the header/source pair. -/
theorem gui_decline_writes_only_ui_form (inp : QT.UiInputs) (base : PyPath)
    (env : String → Option String) (cfg : QT.Config) (cc : Bool)
    (writes : List (List String × String))
    (hdecline : inp.createChoice = some 1)
    (hcfg : QT.uiConfigure inp = .ok (cfg, cc))
    (hrun : QT.uiRun inp base env = .ok writes) :
    writes.length = 1 ∧
    ∃ t, writes = [(resolveUnder base (cfg.class_name ++ ".ui"), t)] := by
  have hcc : cc = false := by
    rw [uiConfigure_ok_snd inp cfg cc hcfg, hdecline]
    decide
  rw [QT.uiRun, hcfg, hcc] at hrun
  unfold QT.uiGenerate at hrun
  dsimp only at hrun
  cases hr : renderTemplate env ("ui/form_" ++ pyLower cfg.baseclass_name ++ ".txt") cfg.dict with
  | error e =>
    rw [hr] at hrun
    exact absurd hrun (by simp [Except.bind, Bind.bind])
  | ok t =>
    rw [hr] at hrun
    simp only [Bind.bind, Except.bind, Bool.false_eq_true, if_false, pure, Except.pure] at hrun
    injection hrun with h
    rw [← h]
    exact ⟨rfl, t, rfl⟩

/-- C5 witness: a concrete `UiClass` run declining the implementation
class writes only `Widget.ui`. -/
theorem gui_decline_writes_only_ui_form_witness :
    ([(["proj", "src", "Widget.ui"], "x")] : List (List String × String)).length = 1 ∧
    ∃ t, [(["proj", "src", "Widget.ui"], "x")] =
      [(resolveUnder projSrc
          ((⟨"Widget", "QWidget", "Widget.cpp", "Widget.h", "WIDGET_H"⟩ : QT.Config).class_name
            ++ ".ui"), t)] :=
  gui_decline_writes_only_ui_form ⟨some 0, some 1, .done "Widget"⟩ projSrc uiFormOnlyEnv
    ⟨"Widget", "QWidget", "Widget.cpp", "Widget.h", "WIDGET_H"⟩ false
    [(["proj", "src", "Widget.ui"], "x")] rfl rfl rfl

/-- C6 counterexample: `write_project_files` does not create missing
parent directories — writing `sub/notes.txt` under `/proj/src` with no
`/proj/src/sub` directory fails and leaves the filesystem unchanged,
refuting the "creates missing parent directories" part of the claim. -/
theorem writer_no_mkdir_counterexample :
    SB.writeProjectFiles ⟨[["proj", "src"]], []⟩ ⟨projSrc, [⟨"sub/notes.txt", "hi"⟩]⟩ =
      (some (.missingParentDir ["proj", "src", "sub", "notes.txt"]), ⟨[["proj", "src"]], []⟩) :=
  rfl

/-- C6 amended: the writer resolves each File under the project's base
path and writes its text, overwriting any existing file at that path
without confirmation; it creates no directories, and a file whose
parent directory is absent fails the run with the earlier files left
as-is. -/
theorem writer_behavior (fs : FS) (base : PyPath) (files : List SB.File)
    (p t : String) :
    ((∀ f ∈ files, (resolveUnder base f.path).dropLast ∈ fs.dirs) →
      (SB.writeProjectFiles fs ⟨base, files⟩).1 = none ∧
      (SB.writeProjectFiles fs ⟨base, files⟩).2.dirs = fs.dirs) ∧
    ((resolveUnder base p).dropLast ∈ fs.dirs →
      SB.writeProjectFiles fs ⟨base, [⟨p, t⟩]⟩ =
        (none, ⟨fs.dirs, setContent fs.files (resolveUnder base p) t⟩) ∧
      getContent (setContent fs.files (resolveUnder base p) t) (resolveUnder base p) =
        some t) ∧
    ((resolveUnder base p).dropLast ∉ fs.dirs →
      SB.writeProjectFiles fs ⟨base, [⟨p, t⟩]⟩ =
        (some (.missingParentDir (resolveUnder base p)), fs)) := by
  refine ⟨fun h => writeFilesLoop_ok base files fs h, fun h => ?_, fun h => ?_⟩
  · rw [SB.writeProjectFiles, SB.writeFilesLoop, writeText_ok_of_parent fs _ t h]
    exact ⟨rfl, getContent_setContent_self fs.files _ t⟩
  · rw [SB.writeProjectFiles, SB.writeFilesLoop, FS.writeText, if_neg h]

/-- C6 amended witness: overwriting an existing `/proj/src/Foo.h`. -/
theorem writer_behavior_witness :
    SB.writeProjectFiles ⟨[["proj", "src"]], [(["proj", "src", "Foo.h"], "old")]⟩
        ⟨projSrc, [⟨"Foo.h", "new"⟩]⟩ =
      (none, ⟨[["proj", "src"]], [(["proj", "src", "Foo.h"], "new")]⟩) ∧
    getContent [(["proj", "src", "Foo.h"], "new")] ["proj", "src", "Foo.h"] = some "new" :=
  (writer_behavior ⟨[["proj", "src"]], [(["proj", "src", "Foo.h"], "old")]⟩ projSrc
    [⟨"Foo.h", "new"⟩] "Foo.h" "new").2.1 (by decide)

/-- C7: rendering fails with the missing-template error whenever the
named resource is absent, and with an unresolved-placeholder key error
whenever a well-formed template references a key the descriptor's
dictionary does not provide; and in the sidebar pipeline such a failure
during `generate` (here: the GuiClass header template missing) aborts
the run before `write_project_files`, so no file is written. -/
theorem renderer_failure_modes (env1 env2 env3 : String → Option String)
    (name1 name2 : String) (cd cd2 : SB.ClassData) (ts : List Tok)
    (bc : Option Nat) (ca : PromptAnswer) (base : PyPath) (fs : FS)
    (h1 : env1 name1 = none)
    (h2 : env2 name2 = some (String.mk (renderToks ts)))
    (hwf : ts.all Tok.wf = true)
    (hmiss : ∃ k ∈ holeKeys ts, cd.dict k = none)
    (h3 : env3 "headers/gui.txt" = none)
    (hprep : SB.guiPrepare bc ca = .ok (some cd2)) :
    SB.getText env1 name1 cd = .error (.fileNotFound name1) ∧
    (∃ k, SB.getText env2 name2 cd = .error (.keyError k) ∧ cd.dict k = none) ∧
    SB.runWith (SB.guiProject bc ca env3 base) fs =
      (some (.fileNotFound "headers/gui.txt"), fs) := by
  refine ⟨by simp [SB.getText, renderTemplate, h1], ?_, ?_⟩
  · obtain ⟨k, hk, hdk⟩ := hmiss
    have hsome : (List.find? (fun k => (cd.dict k).isNone) (holeKeys ts)).isSome := by
      rw [List.find?_isSome]
      exact ⟨k, hk, by simp [hdk]⟩
    obtain ⟨k0, hk0⟩ := Option.isSome_iff_exists.mp hsome
    have hdk0 : cd.dict k0 = none := by
      have := List.find?_some hk0
      simpa using this
    refine ⟨k0, ?_, hdk0⟩
    rw [SB.getText, renderTemplate, h2]
    dsimp only
    have hsub := subst_renderToks cd.dict ts hwf
    rw [hsub, show firstMissing cd.dict ts = some k0 from hk0]
    rfl
  · rw [SB.guiProject, hprep]
    dsimp only
    rw [show SB.getText env3 "headers/gui.txt" cd2 =
      .error (.fileNotFound "headers/gui.txt") from by
        simp [SB.getText, renderTemplate, h3]]
    rfl

/-- C7 witness: concrete missing template, concrete `$\x7bnope\x7d`
placeholder absent from the descriptor, and a GuiClass run whose
missing header template yields an error and no write. -/
theorem renderer_failure_modes_witness :
    SB.getText (fun _ => none) "headers/plain.txt"
        ⟨"Foo", "QWidget", "Foo.cpp", "Foo.h", "FOO_H", "Foo.ui"⟩ =
      .error (.fileNotFound "headers/plain.txt") ∧
    (∃ k, SB.getText (fun n => if n = "t.txt" then some "${nope}" else none) "t.txt"
        ⟨"Foo", "QWidget", "Foo.cpp", "Foo.h", "FOO_H", "Foo.ui"⟩ =
      .error (.keyError k) ∧
      (⟨"Foo", "QWidget", "Foo.cpp", "Foo.h", "FOO_H", "Foo.ui"⟩ : SB.ClassData).dict k = none) ∧
    SB.runWith (SB.guiProject (some 0) (.done "Window") (fun _ => none) projSrc) ⟨[], []⟩ =
      (some (.fileNotFound "headers/gui.txt"), ⟨[], []⟩) :=
  renderer_failure_modes (fun _ => none) (fun n => if n = "t.txt" then some "${nope}" else none)
    (fun _ => none) "headers/plain.txt" "t.txt"
    ⟨"Foo", "QWidget", "Foo.cpp", "Foo.h", "FOO_H", "Foo.ui"⟩
    ⟨"Window", "QMainWindow", "Window.cpp", "Window.h", "WINDOW_H", "Window.ui"⟩
    [Tok.hole "nope"] (some 0) (.done "Window") projSrc ⟨[], []⟩
    rfl rfl (by decide) ⟨"nope", by decide, rfl⟩ rfl rfl

/-- C8: with a language chosen and a non-empty output name, a non-zero
`uic` exit prints the (newline-normalized) captured stderr and writes
nothing, while a zero exit writes the newline-normalized captured
stdout to the user-named output file with the language-appropriate
suffix substituted in. -/
theorem uic_run_outcomes (parent : PyPath) (inp : Uic.GenInputs) (p : Uic.ProcResult)
    (language o : String)
    (hl : choiceInput Uic.languageOptions inp.langChoice = language)
    (hlne : language ≠ "")
    (ho : textInput inp.outputAns = o) (hone : o ≠ "") :
    (p.returncode ≠ 0 →
      Uic.generateCodeRun parent inp (some p) =
        .ok (.printedErr (Uic.normalizeNewline p.stderr))) ∧
    (p.returncode = 0 →
      Uic.generateCodeRun parent inp (some p) =
        .ok (.wrote (Uic.outputPath parent o ((Uic.suffixMap language).getD ""))
          (Uic.normalizeNewline p.stdout))) := by
  constructor
  · intro hrc
    rw [Uic.generateCodeRun, hl, if_neg hlne, ho, if_neg hone]
    dsimp only
    rw [if_pos hrc]
  · intro hrc
    rw [Uic.generateCodeRun, hl, if_neg hlne, ho, if_neg hone]
    dsimp only
    rw [if_neg (by simp [hrc])]

/-- C8 witness: a zero exit writes `MainWindow.h` with normalized
stdout; a non-zero exit prints the normalized stderr. -/
theorem uic_run_outcomes_witness :
    Uic.generateCodeRun projSrc ⟨some 0, .done "MainWindow.txt"⟩ (some ⟨0, "a\r\nb", "e"⟩) =
      .ok (.wrote ["proj", "src", "MainWindow.h"] "a\nb") ∧
    Uic.generateCodeRun projSrc ⟨some 0, .done "MainWindow.txt"⟩ (some ⟨1, "", "x\r\ny"⟩) =
      .ok (.printedErr "x\ny") := by
  constructor
  · have h := (uic_run_outcomes projSrc ⟨some 0, .done "MainWindow.txt"⟩ ⟨0, "a\r\nb", "e"⟩
      "cpp" "MainWindow.txt" rfl (by decide) rfl (by decide)).2 rfl
    rw [h]
    rfl
  · have h := (uic_run_outcomes projSrc ⟨some 0, .done "MainWindow.txt"⟩ ⟨1, "", "x\r\ny"⟩
      "cpp" "MainWindow.txt" rfl (by decide) rfl (by decide)).1 (by decide)
    rw [h]
    rfl

/-- C9: the claim says a missing external tool ends the run with only a
user-facing message.  That holds for the designer command, but in
`QttoolsGenerateCodeCommand._run` the `FileNotFoundError` handler does
not return, so control reaches `process.returncode` with `process`
unbound and the run dies with a further `UnboundLocalError` — for every
base path, a run with `uic` absent ends in that error, not a clean
abort. -/
theorem uic_missing_raises_further_error (parent : PyPath) :
    Uic.generateCodeRun parent ⟨some 0, .done "MainWindow.h"⟩ none =
      .error (.nameError "process") ∧
    Uic.openDesignerRun false =
      some "Unable find Qt 'designer'.\nSet 'designer' directory in PATH." :=
  ⟨rfl, rfl⟩

/-- C10: an absolute prompted file name survives the `EmptyFile`
generator verbatim, the `Path(base, name)` join yields the absolute
path itself, and the resolved write target lies outside the project's
base path — the write lands at `/etc/passwd`'s directory, not under
`/proj/src`; a `..`-laden name escapes the same way. -/
theorem emptyfile_escapes_base :
    SB.emptyFileProject (.done "/etc/passwd") projSrc =
      ⟨projSrc, [⟨"/etc/passwd", ""⟩]⟩ ∧
    joinPath projSrc (parsePath "/etc/passwd") = parsePath "/etc/passwd" ∧
    resolveUnder projSrc "/etc/passwd" = ["etc", "passwd"] ∧
    List.isPrefixOf ["proj", "src"] ["etc", "passwd"] = false ∧
    resolveUnder projSrc "../../etc/passwd" = ["etc", "passwd"] ∧
    SB.writeProjectFiles ⟨[["etc"], ["proj", "src"]], []⟩
        (SB.emptyFileProject (.done "/etc/passwd") projSrc) =
      (none, ⟨[["etc"], ["proj", "src"]], [(["etc", "passwd"], "")]⟩) :=
  ⟨rfl, by decide, by decide, by decide, by decide, rfl⟩

end QtTools
